import Mathlib

/-!
Verification of the CryptoVault exit-strategy simulation and portfolio-analytics
engine (`utils/portfolioCalculations.ts` and `utils/advancedPortfolioOptimizer.ts`).

The TypeScript engine computes over JavaScript numbers; this development embeds
the arithmetic over `ℚ` (exact rationals), so equalities stated "within floating
epsilon" in the specification become exact equalities.  JavaScript's
`x || 0` / `x || 1` guards on numeric fields are the identity except at `0`
(our model has no `undefined`/`NaN`), and are embedded accordingly.
`Array.prototype.sort` with a numeric comparator is a stable sort; it is
embedded as `List.insertionSort`, which is stable and sorts by the same order.
-/

namespace CryptoVault

/-- Closed strategy enum from `types.ts` (`ExitStrategyType`). -/
inductive ExitStrategyType where
  | targetMC
  | ladder
  | conservative
  | moonOrBust
  | ai
  | progressive
  | kelly
deriving DecidableEq

/-- Conviction label from `types.ts` (`Conviction`). -/
inductive Conviction where
  | low
  | medium
  | high
deriving DecidableEq

/-- One exit stage `{percentage, multiplier}` as supplied to the evaluator. -/
structure ExitStage where
  percentage : ℚ
  multiplier : ℚ
deriving DecidableEq

/-- Token snapshot from `types.ts` (`Token`), restricted to the fields the
engine reads (presentation-only fields such as `name`, `chain`, `imageUrl`
are omitted; they never influence any computation verified here). -/
structure Token where
  id : String
  symbol : String
  amount : ℚ
  price : ℚ
  entryPrice : ℚ
  marketCap : ℚ
  targetMarketCap : ℚ
  exitStrategy : ExitStrategyType
  conviction : Conviction
  customExitStages : Option (List ExitStage)
deriving DecidableEq

/-- Per-stage result record from `types.ts` (`StrategyStage`). -/
structure StrategyStage where
  percentage : ℚ
  amount : ℚ
  multiplier : ℚ
  price : ℚ
  value : ℚ
deriving DecidableEq

/-- Evaluation result from `types.ts` (`StrategyResult`); the optional
`profitStages` field is absent (`none`) exactly when the source object has no
`profitStages` key. -/
structure StrategyResult where
  currentValue : ℚ
  targetPrice : ℚ
  growthMultiplier : ℚ
  totalExitValue : ℚ
  profit : ℚ
  profitPercentage : ℚ
  profitStages : Option (List StrategyStage)
deriving DecidableEq

/-- The `winner` discriminator of a `StrategyComparison`. -/
inductive Winner where
  | selectedStrategy
  | allAtOnce
deriving DecidableEq

/-- Comparison record from `types.ts` (`StrategyComparison`). -/
structure StrategyComparison where
  selectedStrategy : StrategyResult
  allAtOnce : StrategyResult
  winner : Winner
  difference : ℚ
  differencePercentage : ℚ
deriving DecidableEq

/-- The price at which a stage is realized: the nominal price
`entryPrice * multiplier`, capped at `targetPrice`
(`portfolioCalculations.ts`, the cap in the `stages.forEach` body). -/
def stagePriceOf (entryPrice targetPrice : ℚ) (s : ExitStage) : ℚ :=
  if entryPrice * s.multiplier > targetPrice then targetPrice else entryPrice * s.multiplier

/-- The `StrategyStage` record pushed onto `profitStages` for one processed
stage: percentage, `amountToSell`, the (possibly rewritten) multiplier, the
capped price and the realized value. -/
def stageEntry (amount entryPrice targetPrice : ℚ) (s : ExitStage) : StrategyStage :=
  { percentage := s.percentage
    amount := amount * (s.percentage / 100)
    multiplier :=
      if entryPrice * s.multiplier > targetPrice then targetPrice / entryPrice else s.multiplier
    price := stagePriceOf entryPrice targetPrice s
    value := amount * (s.percentage / 100) * stagePriceOf entryPrice targetPrice s }

/-- Mutable state of the `stages.forEach` loop in `calculateTokenStrategy`:
accumulated `totalExitValue`, the running `remainingAmount`, and the
`profitStages` array built so far. -/
structure StageLoopState where
  totalExitValue : ℚ
  remainingAmount : ℚ
  profitStages : List StrategyStage
deriving DecidableEq

/-- One iteration of the `stages.forEach` body in `calculateTokenStrategy`:
cap the stage price at `targetPrice`, skip the stage (early `return`) when
selling it would overdraw the holding by more than the `-0.00001` epsilon,
otherwise deduct the sold amount, accumulate the value and push the stage
record. -/
def stageStep (amount entryPrice targetPrice : ℚ) (st : StageLoopState) (s : ExitStage) :
    StageLoopState :=
  let e := stageEntry amount entryPrice targetPrice s
  if st.remainingAmount - e.amount < -(1/100000) then
    st
  else
    { totalExitValue := st.totalExitValue + e.value
      remainingAmount := st.remainingAmount - e.amount
      profitStages := st.profitStages ++ [e] }

/-- The whole `stages.forEach` loop of `calculateTokenStrategy`, started from
`totalExitValue = 0`, `remainingAmount = amount`, empty `profitStages`. -/
def stageLoop (amount entryPrice targetPrice : ℚ) (stages : List ExitStage) : StageLoopState :=
  stages.foldl (stageStep amount entryPrice targetPrice) ⟨0, amount, []⟩

/-- `calculateTokenStrategy(token, stages?)` from `portfolioCalculations.ts`
(the function is textually identical in every revision of the file).
`stages = none` models an absent argument; `some []` an empty array — both take
the "All at Target" path.  Degenerate market data short-circuits to the
current-value-only result with `growthMultiplier = 1`. -/
def calculateTokenStrategy (token : Token) (stages : Option (List ExitStage)) : StrategyResult :=
  let amount := token.amount
  let price := token.price
  let entryPrice := token.entryPrice
  let marketCap := token.marketCap
  let targetMarketCap := token.targetMarketCap
  let currentValue := amount * price
  let initialInvestment := amount * entryPrice
  if marketCap ≤ 0 ∨ targetMarketCap ≤ 0 ∨ entryPrice ≤ 0 then
    let profit := currentValue - initialInvestment
    { currentValue := currentValue
      targetPrice := price
      growthMultiplier := 1
      totalExitValue := currentValue
      profit := profit
      profitPercentage := if initialInvestment > 0 then profit / initialInvestment * 100 else 0
      profitStages := none }
  else
    let growthMultiplier := targetMarketCap / marketCap
    let targetPrice := price * growthMultiplier
    let allAtTarget : StrategyResult :=
      let totalExitValue := amount * targetPrice
      let profit := totalExitValue - initialInvestment
      { currentValue := currentValue
        targetPrice := targetPrice
        growthMultiplier := growthMultiplier
        totalExitValue := totalExitValue
        profit := profit
        profitPercentage := if initialInvestment > 0 then profit / initialInvestment * 100 else 0
        profitStages := none }
    match stages with
    | none => allAtTarget
    | some ss =>
      if ss = [] then allAtTarget
      else
        let final := stageLoop amount entryPrice targetPrice ss
        let totalExitValue := final.totalExitValue +
          (if final.remainingAmount > 1/100000 then final.remainingAmount * targetPrice else 0)
        let profit := totalExitValue - initialInvestment
        { currentValue := currentValue
          targetPrice := targetPrice
          growthMultiplier := growthMultiplier
          totalExitValue := totalExitValue
          profit := profit
          profitPercentage := if initialInvestment > 0 then profit / initialInvestment * 100 else 0
          profitStages := some final.profitStages }

/-- In-place effect of `calculateTokenStrategy` on the caller-supplied stage
array: the `stages.forEach` body assigns `stage.multiplier = targetPrice /
entryPrice` whenever the nominal stage price exceeds `targetPrice`.  The
assignment happens before the early-`return` precision check, so it applies to
every element of the array; it is not reached at all when the degenerate-data
guard short-circuits (or when no stage array is passed). -/
def capStagesPost (token : Token) (stages : List ExitStage) : List ExitStage :=
  if token.marketCap ≤ 0 ∨ token.targetMarketCap ≤ 0 ∨ token.entryPrice ≤ 0 then
    stages
  else
    let targetPrice := token.price * (token.targetMarketCap / token.marketCap)
    stages.map (fun s =>
      if token.entryPrice * s.multiplier > targetPrice then
        { percentage := s.percentage, multiplier := targetPrice / token.entryPrice }
      else s)

/-- `calculateDynamicStages(token, strategyType)` from `portfolioCalculations.ts`
(first revision, lines 74–198): potential-tiered stage tables for the
ladder / conservative / moonOrBust / kelly families.  The string switch of the
source becomes a match on the strategy enum; the `default` branch returns no
stages. -/
def calculateDynamicStages (token : Token) (strategyType : ExitStrategyType) : List ExitStage :=
  let marketCap := token.marketCap
  let targetMarketCap := token.targetMarketCap
  let entryPrice := token.entryPrice
  let price := token.price
  if marketCap ≤ 0 ∨ targetMarketCap ≤ 0 ∨ entryPrice ≤ 0 ∨ price ≤ 0 then
    []
  else
    let pot := targetMarketCap / marketCap
    let cur := price / entryPrice
    let isLowPotential := pot < 5
    let isMediumPotential := 5 ≤ pot ∧ pot < 20
    match strategyType with
    | .ladder =>
      if isLowPotential then
        [⟨40, min (cur * (3/2)) (pot * (3/10))⟩,
         ⟨35, min (cur * 2) (pot * (3/5))⟩,
         ⟨25, min (cur * 3) (pot * (9/10))⟩]
      else if isMediumPotential then
        [⟨25, min (cur * 2) (pot * (1/4))⟩,
         ⟨30, min (cur * 4) (pot * (1/2))⟩,
         ⟨25, min (cur * 8) (pot * (3/4))⟩,
         ⟨20, min (cur * 12) (pot * 1)⟩]
      else
        [⟨15, min (cur * 3) (pot * (1/5))⟩,
         ⟨20, min (cur * 6) (pot * (2/5))⟩,
         ⟨25, min (cur * 12) (pot * (3/5))⟩,
         ⟨25, min (cur * 20) (pot * (4/5))⟩,
         ⟨15, min (cur * 30) (pot * 1)⟩]
    | .conservative =>
      if isLowPotential then
        [⟨50, min (cur * (3/2)) (pot * (2/5))⟩,
         ⟨30, min (cur * (5/2)) (pot * (4/5))⟩,
         ⟨20, min (cur * 4) (pot * 1)⟩]
      else if isMediumPotential then
        [⟨35, min (cur * 2) (pot * (3/10))⟩,
         ⟨35, min (cur * 5) (pot * (3/5))⟩,
         ⟨30, min (cur * 10) (pot * 1)⟩]
      else
        [⟨25, min (cur * 3) (pot * (1/5))⟩,
         ⟨30, min (cur * 8) (pot * (1/2))⟩,
         ⟨45, min (cur * 15) (pot * 1)⟩]
    | .moonOrBust =>
      if isLowPotential then
        [⟨60, min (cur * 2) (pot * (1/2))⟩,
         ⟨40, min (cur * 4) (pot * 1)⟩]
      else if isMediumPotential then
        [⟨30, min (cur * 3) (pot * (3/10))⟩,
         ⟨30, min (cur * 8) (pot * (7/10))⟩]
      else
        [⟨20, min (cur * 5) (pot * (1/4))⟩,
         ⟨20, min (cur * 12) (pot * (1/2))⟩]
    | .kelly =>
      let winProbability := min (7/10) (max (3/10) (1 - pot / 100))
      let lossProbability := 1 - winProbability
      let kellyPercentage := max (1/10) (min (1/2) ((pot * winProbability - lossProbability) / pot))
      if isLowPotential then
        let adjustedKelly := kellyPercentage * (3/5)
        [⟨adjustedKelly * 100, min (cur * 2) (pot * (1/2))⟩,
         ⟨(1 - adjustedKelly) * 100, min (cur * 4) (pot * 1)⟩]
      else if isMediumPotential then
        [⟨kellyPercentage * 100, min (cur * 3) (pot * (2/5))⟩,
         ⟨kellyPercentage * 100, min (cur * 6) (pot * (7/10))⟩,
         ⟨(1 - 2 * kellyPercentage) * 100, min (cur * 10) (pot * 1)⟩]
      else
        let adjustedKelly := kellyPercentage * (6/5)
        [⟨adjustedKelly * 100, min (cur * 5) (pot * (3/10))⟩,
         ⟨adjustedKelly * 100, min (cur * 10) (pot * (3/5))⟩,
         ⟨(1 - 2 * adjustedKelly) * 100, min (cur * 20) (pot * 1)⟩]
    | _ => []

/-- The all-zero `StrategyResult` built by the defensive branch of
`compareStrategies` for a null/undefined token. -/
def emptyStrategyResult : StrategyResult :=
  { currentValue := 0, targetPrice := 0, growthMultiplier := 0, totalExitValue := 0,
    profit := 0, profitPercentage := 0, profitStages := none }

/-- The fixed `progressiveConfig` table of `compareStrategies`
(`sellPercent`, `progressPercent` pairs). -/
def progressiveConfig : List (ℚ × ℚ) :=
  [(15, 50), (20, 75), (25, 90), (40, 100)]

/-- `compareStrategies(token)` from `portfolioCalculations.ts` (first revision,
lines 280–326): dispatches the token's selected strategy (AI custom stages,
progressive, dynamic ladder/conservative/moonOrBust/kelly, or the all-at-target
default), evaluates it against the all-at-once benchmark, and picks the winner.
A `none` argument models the JavaScript null/undefined token. -/
def compareStrategies (tok : Option Token) : StrategyComparison :=
  match tok with
  | none =>
    { selectedStrategy := emptyStrategyResult, allAtOnce := emptyStrategyResult,
      winner := .allAtOnce, difference := 0, differencePercentage := 0 }
  | some t =>
    let selectedStrategy : StrategyResult :=
      if t.exitStrategy = .ai ∧ t.customExitStages.isSome then
        calculateTokenStrategy t t.customExitStages
      else if t.exitStrategy = .progressive then
        let canCalculate :=
          t.price > 0 ∧ t.entryPrice > 0 ∧ t.marketCap > 0 ∧ t.targetMarketCap > t.marketCap
        let dynamicStages :=
          if canCalculate then
            progressiveConfig.map (fun stage =>
              let targetPriceAtProgress :=
                t.price * ((t.targetMarketCap * (stage.2 / 100)) / t.marketCap)
              { percentage := stage.1, multiplier := targetPriceAtProgress / t.entryPrice })
          else []
        calculateTokenStrategy t (some dynamicStages)
      else if t.exitStrategy = .ladder ∨ t.exitStrategy = .conservative ∨
          t.exitStrategy = .moonOrBust ∨ t.exitStrategy = .kelly then
        calculateTokenStrategy t (some (calculateDynamicStages t t.exitStrategy))
      else
        calculateTokenStrategy t none
    let allAtOnce := calculateTokenStrategy t none
    { selectedStrategy := selectedStrategy
      allAtOnce := allAtOnce
      winner :=
        if selectedStrategy.totalExitValue ≥ allAtOnce.totalExitValue then .selectedStrategy
        else .allAtOnce
      difference := |selectedStrategy.totalExitValue - allAtOnce.totalExitValue|
      differencePercentage :=
        if allAtOnce.totalExitValue > 0 then
          |selectedStrategy.totalExitValue - allAtOnce.totalExitValue| /
            allAtOnce.totalExitValue * 100
        else 0 }

/-- Portfolio totals record from `types.ts` (`PortfolioValues`). -/
structure PortfolioValues where
  total : ℚ
  target : ℚ
  growthMultiplier : ℚ
  growthPercentage : ℚ
  highestPotentialToken : Option Token
deriving DecidableEq

/-- Accumulator of the `tokens.forEach` loop in `calculatePortfolioValues`. -/
structure PortfolioAcc where
  total : ℚ
  target : ℚ
  highestPotentialToken : Option Token
  highestMultiplier : ℚ

/-- One iteration of the `tokens.forEach` body of `calculatePortfolioValues`:
add the token's current value to `total`, its selected-strategy exit value to
`target`, and track the raw highest-potential token.  (`token.amount || 0` and
`token.price || 0` are the identity on rational fields.) -/
def portfolioStep (acc : PortfolioAcc) (token : Token) : PortfolioAcc :=
  let value := token.amount * token.price
  let strategyResult := (compareStrategies (some token)).selectedStrategy
  if token.marketCap > 0 ∧ token.targetMarketCap > 0 ∧
      token.targetMarketCap / token.marketCap > acc.highestMultiplier then
    { total := acc.total + value
      target := acc.target + strategyResult.totalExitValue
      highestPotentialToken := some token
      highestMultiplier := token.targetMarketCap / token.marketCap }
  else
    { total := acc.total + value
      target := acc.target + strategyResult.totalExitValue
      highestPotentialToken := acc.highestPotentialToken
      highestMultiplier := acc.highestMultiplier }

/-- `calculatePortfolioValues(tokens)` from `portfolioCalculations.ts` (first
revision, lines 5–43): per-token loop, then `growthMultiplier = target/total`
(0 when `total` is 0) and `growthPercentage = (growthMultiplier - 1) * 100`. -/
def calculatePortfolioValues (tokens : List Token) : PortfolioValues :=
  let acc := tokens.foldl portfolioStep ⟨0, 0, none, 0⟩
  let growthMultiplier := if acc.total > 0 then acc.target / acc.total else 0
  { total := acc.total
    target := acc.target
    growthMultiplier := growthMultiplier
    growthPercentage := (growthMultiplier - 1) * 100
    highestPotentialToken := acc.highestPotentialToken }

/-- Ranked opportunity from `types.ts` (`TopOpportunity`): the token spread
together with its `potentialMultiplier`. -/
structure TopOpportunity where
  token : Token
  potentialMultiplier : ℚ
deriving DecidableEq

/-- JavaScript `x || 1` on a numeric field: 1 when the value is `0`
(the only falsy rational), otherwise the value itself. -/
def orDefaultOne (x : ℚ) : ℚ :=
  if x = 0 then 1 else x

/-- `findTopOpportunities(tokens)` from `portfolioCalculations.ts`: keep tokens
with positive marketCap and targetMarketCap (`x || 0` is the identity here),
attach `potentialMultiplier = (targetMarketCap || 1) / (marketCap || 1)`, sort
descending by multiplier with the stable array sort, and take the top 5. -/
def findTopOpportunities (tokens : List Token) : List TopOpportunity :=
  let opportunities :=
    (tokens.filter (fun t => t.marketCap > 0 ∧ t.targetMarketCap > 0)).map
      (fun t =>
        { token := t
          potentialMultiplier := orDefaultOne t.targetMarketCap / orDefaultOne t.marketCap })
  (List.insertionSort
    (fun a b => b.potentialMultiplier ≤ a.potentialMultiplier) opportunities).take 5

/-- Per-token analysis record built by `getRebalanceCandidates`: the token
spread plus `value`, conviction, `portfolioWeight`, `progress`, the PnL
fraction (`pnlRatio` in the source) and `potentialMultiplier`. -/
structure AnalyzedToken where
  token : Token
  value : ℚ
  conviction : Conviction
  portfolioWeight : ℚ
  progress : ℚ
  pnl : ℚ
  potentialMultiplier : ℚ
deriving DecidableEq

/-- An accelerate-bucket entry: the analyzed token with its attached
`loserScore`. -/
structure ScoredToken where
  base : AnalyzedToken
  loserScore : ℚ
deriving DecidableEq

/-- Result record of `getRebalanceCandidates`. -/
structure RebalanceCandidates where
  profit : List AnalyzedToken
  risk : List AnalyzedToken
  accelerate : List ScoredToken
  buy : List AnalyzedToken
deriving DecidableEq

/-- The `buyConvictionWeights` table of `getRebalanceCandidates`. -/
def buyConvictionWeight : Conviction → ℚ
  | .low => 7/10
  | .medium => 1
  | .high => 3/2

/-- The `sellConvictionWeights` table of `getRebalanceCandidates`. -/
def sellConvictionWeight : Conviction → ℚ
  | .low => 3/2
  | .medium => 1
  | .high => 1/2

/-- The conviction-dependent `profitThresholds` table of
`getRebalanceCandidates`. -/
def profitThreshold : Conviction → ℚ
  | .low => 4/5
  | .medium => 9/10
  | .high => 19/20

/-- Buy-candidate score used by `getRebalanceCandidates`:
`potentialMultiplier * buyConvictionWeights[conviction]`. -/
def buyScore (t : AnalyzedToken) : ℚ :=
  t.potentialMultiplier * buyConvictionWeight t.conviction

/-- How far a token's progress exceeds its conviction-dependent profit
threshold (the sort key of the profit bucket). -/
def progressExcess (t : AnalyzedToken) : ℚ :=
  t.progress - profitThreshold t.conviction

/-- The per-token analysis map of `getRebalanceCandidates`. -/
def analyzeToken (totalValue : ℚ) (t : Token) : AnalyzedToken :=
  let value := t.amount * t.price
  { token := t
    value := value
    conviction := t.conviction
    portfolioWeight := value / totalValue
    progress := if t.targetMarketCap > 0 then t.marketCap / t.targetMarketCap else 0
    pnl := if t.entryPrice > 0 then (t.price - t.entryPrice) / t.entryPrice else 0
    potentialMultiplier :=
      if t.marketCap > 0 ∧ t.targetMarketCap > t.marketCap then
        t.targetMarketCap / t.marketCap
      else 1 }

/-- `getRebalanceCandidates(tokens)` from `portfolioCalculations.ts` (third
revision, lines 1182–1273): noise-filter the analyzed tokens, build the three
sell buckets (profit-taking, concentration risk, underperformance), each sorted
by its own score and capped at 3, and pick a single buy candidate preferring
tokens not already suggested for selling.  All sorts model the stable
`Array.prototype.sort`. -/
def getRebalanceCandidates (tokens : List Token) : RebalanceCandidates :=
  let totalValue := tokens.foldl (fun acc t => acc + t.amount * t.price) 0
  if tokens.length < 2 ∨ totalValue = 0 then
    { profit := [], risk := [], accelerate := [], buy := [] }
  else
    let analyzedTokens :=
      (tokens.map (analyzeToken totalValue)).filter (fun t => t.value > 1)
    if analyzedTokens.length < 2 then
      { profit := [], risk := [], accelerate := [], buy := [] }
    else
      let buyCandidates :=
        List.insertionSort (fun a b => buyScore b ≤ buyScore a) analyzedTokens
      let profitCandidates :=
        (List.insertionSort (fun a b => progressExcess b ≤ progressExcess a)
          (analyzedTokens.filter (fun t => t.progress ≥ profitThreshold t.conviction))).take 3
      let riskCandidates :=
        (List.insertionSort (fun a b => b.portfolioWeight ≤ a.portfolioWeight)
          (analyzedTokens.filter (fun t => t.portfolioWeight > 2/5))).take 3
      let accelerateCandidates :=
        (List.insertionSort (fun a b => b.loserScore ≤ a.loserScore)
          ((analyzedTokens.filter (fun t => t.pnl < 0)).map (fun t =>
            { base := t
              loserScore := (t.pnl * (-1) / t.potentialMultiplier) *
                sellConvictionWeight t.conviction }))).take 3
      let sellIds :=
        (profitCandidates ++ riskCandidates ++ accelerateCandidates.map (fun s => s.base)).map
          (fun t => t.token.id)
      let nonSellBuyCandidates :=
        buyCandidates.filter (fun t => ¬ t.token.id ∈ sellIds)
      let finalBuyCandidate :=
        match nonSellBuyCandidates with
        | b :: _ => some b
        | [] => buyCandidates.head?
      { profit := profitCandidates
        risk := riskCandidates
        accelerate := accelerateCandidates
        buy :=
          match finalBuyCandidate with
          | some b => [b]
          | none => [] }

/-- JavaScript object write `m[k] = v`: replace the value of an existing key in
place, otherwise append the key at the end (insertion order preserved). -/
def objSet {α : Type} (m : List (String × α)) (k : String) (v : α) : List (String × α) :=
  if m.any (fun p => p.1 = k) then
    m.map (fun p => if p.1 = k then (k, v) else p)
  else
    m ++ [(k, v)]

/-- JavaScript object read `m[k]` with a default for a missing key. -/
def objGet {α : Type} (m : List (String × α)) (k : String) (dflt : α) : α :=
  match m.find? (fun p => p.1 = k) with
  | some p => p.2
  | none => dflt

/-- One iteration of the inner `tokens.forEach` of
`AdvancedPortfolioOptimizer.calculateCorrelationMatrix`
(`advancedPortfolioOptimizer.ts`, lines 576–592): write `1` on the diagonal
(`token1.symbol === token2.symbol`), otherwise `Math.random() * 0.8 - 0.4`.
The engine's calls to `Math.random()` are modelled by an explicit stream
`rng : ℕ → ℚ` of draws consumed in call order; the accumulator's second
component is the index of the next unused draw. -/
def corrRowStep (rng : ℕ → ℚ) (s1 : String) (acc : List (String × ℚ) × ℕ) (s2 : String) :
    List (String × ℚ) × ℕ :=
  if s1 = s2 then (objSet acc.1 s2 1, acc.2)
  else (objSet acc.1 s2 (rng acc.2 * (4/5) - 2/5), acc.2 + 1)

/-- One row `matrix[token1.symbol]` of the correlation matrix: the inner loop
over all token symbols, starting at draw index `start`. -/
def buildCorrRow (rng : ℕ → ℚ) (syms : List String) (s1 : String) (start : ℕ) :
    List (String × ℚ) × ℕ :=
  syms.foldl (corrRowStep rng s1) ([], start)

/-- One iteration of the outer `tokens.forEach` of
`calculateCorrelationMatrix`: build the row for `token1.symbol` and store it in
the matrix object. -/
def corrOuterStep (rng : ℕ → ℚ) (syms : List String)
    (acc : List (String × List (String × ℚ)) × ℕ) (t1 : Token) :
    List (String × List (String × ℚ)) × ℕ :=
  let row := buildCorrRow rng syms t1.symbol acc.2
  (objSet acc.1 t1.symbol row.1, row.2)

/-- `calculateCorrelationMatrix` from `advancedPortfolioOptimizer.ts`: the
nested `tokens.forEach` building `matrix[token1.symbol][token2.symbol]`, with
the `Math.random()` draws made explicit as a stream. -/
def calculateCorrelationMatrix (rng : ℕ → ℚ) (tokens : List Token) :
    List (String × List (String × ℚ)) :=
  (tokens.foldl (corrOuterStep rng (tokens.map (fun t => t.symbol)))
    (([] : List (String × List (String × ℚ))), 0)).1

/-- Lookup of one correlation entry `matrix[a][b]` (0 when absent). -/
def matrixAt (m : List (String × List (String × ℚ))) (a b : String) : ℚ :=
  objGet (objGet m a []) b 0

/-- The module-level `STRATEGY_CONFIG` stage tables of the second revision of
`portfolioCalculations.ts` (lines 602–630): mutable module state shared by all
evaluations. -/
structure StrategyConfigTables where
  ladder : List ExitStage
  conservative : List ExitStage
  moonOrBust : List ExitStage
deriving DecidableEq

/-- Initial values of the `STRATEGY_CONFIG` stage tables. -/
def initialStrategyConfig : StrategyConfigTables :=
  { ladder := [⟨25, 2⟩, ⟨25, 4⟩, ⟨25, 8⟩, ⟨25, 16⟩]
    conservative := [⟨3333/100, 3⟩, ⟨3333/100, 6⟩, ⟨3333/100, 10⟩]
    moonOrBust := [⟨25, 5⟩, ⟨25, 10⟩] }

/-- `compareStrategies(token)` from the second revision of
`portfolioCalculations.ts` (lines 712–739), with the module-level
`STRATEGY_CONFIG` tables threaded as explicit state: a prebuilt strategy
(ladder / conservative / moonOrBust) passes the shared table by reference into
`calculateTokenStrategy`, whose price-capping writes back into it
(`capStagesPost`); the returned state is the table contents after the call.
AI custom stages belong to the token object, so they leave the shared tables
unchanged. -/
def compareStrategiesShared (cfg : StrategyConfigTables) (tok : Option Token) :
    StrategyComparison × StrategyConfigTables :=
  match tok with
  | none =>
    ({ selectedStrategy := emptyStrategyResult, allAtOnce := emptyStrategyResult,
       winner := .allAtOnce, difference := 0, differencePercentage := 0 }, cfg)
  | some t =>
    let stagesUsed : Option (List ExitStage) :=
      match t.exitStrategy, t.customExitStages with
      | .ai, some cs => some cs
      | .ladder, _ => some cfg.ladder
      | .conservative, _ => some cfg.conservative
      | .moonOrBust, _ => some cfg.moonOrBust
      | _, _ => none
    let selectedStrategy := calculateTokenStrategy t stagesUsed
    let cfg2 : StrategyConfigTables :=
      match t.exitStrategy with
      | .ladder => { cfg with ladder := capStagesPost t cfg.ladder }
      | .conservative => { cfg with conservative := capStagesPost t cfg.conservative }
      | .moonOrBust => { cfg with moonOrBust := capStagesPost t cfg.moonOrBust }
      | _ => cfg
    let allAtOnce := calculateTokenStrategy t none
    ({ selectedStrategy := selectedStrategy
       allAtOnce := allAtOnce
       winner :=
         if selectedStrategy.totalExitValue ≥ allAtOnce.totalExitValue then .selectedStrategy
         else .allAtOnce
       difference := |selectedStrategy.totalExitValue - allAtOnce.totalExitValue|
       differencePercentage :=
         if allAtOnce.totalExitValue > 0 then
           |selectedStrategy.totalExitValue - allAtOnce.totalExitValue| /
             allAtOnce.totalExitValue * 100
         else 0 }, cfg2)

/-- Sum of the `amount` fields recorded in a list of emitted stage results. -/
def sumStageAmounts (l : List StrategyStage) : ℚ :=
  (l.map StrategyStage.amount).sum

/-- The base token of the specification's worked examples: amount 100, entry
price $1, current price $2, market cap $2M, target market cap $40M
(target price $40). -/
def baseToken : Token :=
  { id := "base", symbol := "BASE", amount := 100, price := 2, entryPrice := 1,
    marketCap := 2000000, targetMarketCap := 40000000,
    exitStrategy := .targetMC, conviction := .medium, customExitStages := none }

/-- The base token with the ladder strategy selected and the target market cap
lowered to $6M (target price $6), as in the capping example. -/
def ladderTokenLow : Token :=
  { baseToken with targetMarketCap := 6000000, exitStrategy := .ladder }

/-- The base token with the ladder strategy selected (target price $40). -/
def ladderTokenHigh : Token :=
  { baseToken with exitStrategy := .ladder }

/-- First of two tokens with identical potential multiplier 2 ($1M market cap,
$2M target). -/
def equalPotentialTokenOne : Token :=
  { id := "e1", symbol := "EQ1", amount := 10, price := 1, entryPrice := 1,
    marketCap := 1000000, targetMarketCap := 2000000,
    exitStrategy := .targetMC, conviction := .medium, customExitStages := none }

/-- Second token with potential multiplier 2. -/
def equalPotentialTokenTwo : Token :=
  { equalPotentialTokenOne with id := "e2", symbol := "EQ2" }

/-- Rebalance demo token A: value 60 of a 100-value portfolio (60% weight) and
progress 95% at medium conviction, so it qualifies for both the profit-taking
and the concentration-risk buckets. -/
def rebalanceTokenA : Token :=
  { id := "a", symbol := "A", amount := 30, price := 2, entryPrice := 1,
    marketCap := 95, targetMarketCap := 100,
    exitStrategy := .targetMC, conviction := .medium, customExitStages := none }

/-- Rebalance demo token B: value 40 (40% weight), progress 10%, positive PnL;
in no sell bucket. -/
def rebalanceTokenB : Token :=
  { id := "b", symbol := "B", amount := 20, price := 2, entryPrice := 1,
    marketCap := 10, targetMarketCap := 100,
    exitStrategy := .targetMC, conviction := .medium, customExitStages := none }

/-- A random stream whose first draw is 0 and all later draws are 0.9: the
off-diagonal entries (A,B) and (B,A) of a two-token correlation matrix then
come from different draws. -/
def rngAsym : ℕ → ℚ :=
  fun k => if k = 0 then 0 else 9/10

/-- The constant random stream 1/2. -/
def rngHalf : ℕ → ℚ :=
  fun _ => 1/2

/-- Unfolding of the `amount` field of an emitted stage record. -/
lemma stageEntry_amount (amount entryPrice targetPrice : ℚ) (s : ExitStage) :
    (stageEntry amount entryPrice targetPrice s).amount = amount * (s.percentage / 100) :=
  rfl

/-- Sums of recorded amounts add over list append. -/
lemma sumStageAmounts_append (l1 l2 : List StrategyStage) :
    sumStageAmounts (l1 ++ l2) = sumStageAmounts l1 + sumStageAmounts l2 := by
  simp [sumStageAmounts]

/-- One loop iteration preserves `recorded amounts + remainingAmount`. -/
lemma stageStep_conservation (amount entryPrice targetPrice : ℚ) (st : StageLoopState)
    (s : ExitStage) :
    sumStageAmounts (stageStep amount entryPrice targetPrice st s).profitStages +
      (stageStep amount entryPrice targetPrice st s).remainingAmount =
    sumStageAmounts st.profitStages + st.remainingAmount := by
  simp only [stageStep]
  by_cases h :
    st.remainingAmount - (stageEntry amount entryPrice targetPrice s).amount < -(1/100000)
  · rw [if_pos h]
  · rw [if_neg h]
    show sumStageAmounts (st.profitStages ++ [stageEntry amount entryPrice targetPrice s]) +
        (st.remainingAmount - (stageEntry amount entryPrice targetPrice s).amount) =
      sumStageAmounts st.profitStages + st.remainingAmount
    rw [sumStageAmounts_append]
    simp only [sumStageAmounts, List.map_cons, List.map_nil, List.sum_cons, List.sum_nil]
    ring

/-- The whole loop preserves `recorded amounts + remainingAmount`. -/
lemma foldl_stageStep_conservation (amount entryPrice targetPrice : ℚ)
    (stages : List ExitStage) :
    ∀ st : StageLoopState,
      sumStageAmounts
          ((stages.foldl (stageStep amount entryPrice targetPrice) st).profitStages) +
        (stages.foldl (stageStep amount entryPrice targetPrice) st).remainingAmount =
      sumStageAmounts st.profitStages + st.remainingAmount := by
  induction stages with
  | nil => intro st; rfl
  | cons s rest ih =>
    intro st
    rw [List.foldl_cons, ih, stageStep_conservation]

/-- One loop iteration never drives `remainingAmount` below the `-0.00001`
epsilon. -/
lemma stageStep_remaining_ge (amount entryPrice targetPrice : ℚ) (st : StageLoopState)
    (s : ExitStage) (h : -(1/100000) ≤ st.remainingAmount) :
    -(1/100000) ≤ (stageStep amount entryPrice targetPrice st s).remainingAmount := by
  simp only [stageStep]
  by_cases hc :
    st.remainingAmount - (stageEntry amount entryPrice targetPrice s).amount < -(1/100000)
  · rw [if_pos hc]
    exact h
  · rw [if_neg hc]
    exact not_lt.mp hc

/-- The whole loop never drives `remainingAmount` below the epsilon. -/
lemma foldl_stageStep_remaining_ge (amount entryPrice targetPrice : ℚ)
    (stages : List ExitStage) :
    ∀ st : StageLoopState, -(1/100000) ≤ st.remainingAmount →
      -(1/100000) ≤
        (stages.foldl (stageStep amount entryPrice targetPrice) st).remainingAmount := by
  induction stages with
  | nil => intro st h; exact h
  | cons s rest ih =>
    intro st h
    rw [List.foldl_cons]
    exact ih _ (stageStep_remaining_ge amount entryPrice targetPrice st s h)

/-- Closed form of the stage loop when no stage is skipped: with a nonnegative
holding, nonnegative percentages, and enough remaining amount to cover every
stage, each stage is recorded in order, the values accumulate, and the
remaining amount drops by the total percentage sold. -/
lemma foldl_stageStep_noskip (amount entryPrice targetPrice : ℚ) (hA : 0 ≤ amount)
    (stages : List ExitStage) :
    ∀ st : StageLoopState,
      (∀ s ∈ stages, 0 ≤ s.percentage) →
      amount * ((stages.map ExitStage.percentage).sum / 100) ≤ st.remainingAmount →
      stages.foldl (stageStep amount entryPrice targetPrice) st =
        { totalExitValue := st.totalExitValue +
            ((stages.map (fun s => (stageEntry amount entryPrice targetPrice s).value)).sum)
          remainingAmount := st.remainingAmount -
            amount * ((stages.map ExitStage.percentage).sum / 100)
          profitStages :=
            st.profitStages ++ stages.map (stageEntry amount entryPrice targetPrice) } := by
  induction stages with
  | nil =>
    intro st _ _
    simp
  | cons s rest ih =>
    intro st hpos hle
    have hrestpos : ∀ x ∈ rest, 0 ≤ ExitStage.percentage x :=
      fun x hx => hpos x (List.mem_cons_of_mem _ hx)
    have hrest_nonneg : 0 ≤ (rest.map ExitStage.percentage).sum := by
      apply List.sum_nonneg
      intro x hx
      obtain ⟨s', hs', rfl⟩ := List.mem_map.mp hx
      exact hrestpos s' hs'
    have hle' : amount * ((s.percentage + (rest.map ExitStage.percentage).sum) / 100) ≤
        st.remainingAmount := by
      simpa using hle
    have hAmul : 0 ≤ amount * ((rest.map ExitStage.percentage).sum / 100) :=
      mul_nonneg hA (by positivity)
    have hexpand : amount * ((s.percentage + (rest.map ExitStage.percentage).sum) / 100)
        = amount * (s.percentage / 100) +
          amount * ((rest.map ExitStage.percentage).sum / 100) := by
      ring
    have hstep : ¬ (st.remainingAmount - (stageEntry amount entryPrice targetPrice s).amount
        < -(1/100000)) := by
      rw [stageEntry_amount]
      push_neg
      nlinarith [hle', hAmul, hexpand]
    have hstepeq : stageStep amount entryPrice targetPrice st s =
        { totalExitValue := st.totalExitValue +
            (stageEntry amount entryPrice targetPrice s).value
          remainingAmount := st.remainingAmount -
            (stageEntry amount entryPrice targetPrice s).amount
          profitStages := st.profitStages ++ [stageEntry amount entryPrice targetPrice s] } := by
    -- the skip branch is not taken
      simp only [stageStep, hstep, if_false]
    have hle2 : amount * ((rest.map ExitStage.percentage).sum / 100) ≤
        st.remainingAmount - (stageEntry amount entryPrice targetPrice s).amount := by
      rw [stageEntry_amount]
      nlinarith [hle', hexpand]
    rw [List.foldl_cons, hstepeq, ih _ hrestpos (by simpa using hle2)]
    simp only [List.map_cons, List.sum_cons, StageLoopState.mk.injEq, List.append_assoc,
      List.singleton_append]
    refine ⟨by ring, by rw [stageEntry_amount]; ring, by simp⟩

/-- Valid market data falsifies the degenerate-data guard of
`calculateTokenStrategy`. -/
lemma calculateTokenStrategy_guard_false (t : Token) (hmc : 0 < t.marketCap)
    (htmc : 0 < t.targetMarketCap) (hep : 0 < t.entryPrice) :
    ¬ (t.marketCap ≤ 0 ∨ t.targetMarketCap ≤ 0 ∨ t.entryPrice ≤ 0) := by
  push_neg
  exact ⟨hmc, htmc, hep⟩

/-- With valid market data and no stage list, `calculateTokenStrategy` is the
all-at-target result. -/
lemma calculateTokenStrategy_none_eq (t : Token) (hmc : 0 < t.marketCap)
    (htmc : 0 < t.targetMarketCap) (hep : 0 < t.entryPrice) :
    calculateTokenStrategy t none =
      { currentValue := t.amount * t.price
        targetPrice := t.price * (t.targetMarketCap / t.marketCap)
        growthMultiplier := t.targetMarketCap / t.marketCap
        totalExitValue := t.amount * (t.price * (t.targetMarketCap / t.marketCap))
        profit := t.amount * (t.price * (t.targetMarketCap / t.marketCap)) -
          t.amount * t.entryPrice
        profitPercentage :=
          if t.amount * t.entryPrice > 0 then
            (t.amount * (t.price * (t.targetMarketCap / t.marketCap)) -
              t.amount * t.entryPrice) / (t.amount * t.entryPrice) * 100
          else 0
        profitStages := none } := by
  simp only [calculateTokenStrategy]
  rw [if_neg (calculateTokenStrategy_guard_false t hmc htmc hep)]

/-- An empty stage array takes the same all-at-target path as an absent one. -/
lemma calculateTokenStrategy_some_nil (t : Token) :
    calculateTokenStrategy t (some []) = calculateTokenStrategy t none :=
  rfl

/-- With valid market data and a nonempty stage list, `calculateTokenStrategy`
runs the stage loop and sells any over-epsilon remainder at the target price. -/
lemma calculateTokenStrategy_staged_eq (t : Token) (stages : List ExitStage)
    (hmc : 0 < t.marketCap) (htmc : 0 < t.targetMarketCap) (hep : 0 < t.entryPrice)
    (hne : stages ≠ []) :
    calculateTokenStrategy t (some stages) =
      { currentValue := t.amount * t.price
        targetPrice := t.price * (t.targetMarketCap / t.marketCap)
        growthMultiplier := t.targetMarketCap / t.marketCap
        totalExitValue :=
          (stageLoop t.amount t.entryPrice
              (t.price * (t.targetMarketCap / t.marketCap)) stages).totalExitValue +
            (if (stageLoop t.amount t.entryPrice
                  (t.price * (t.targetMarketCap / t.marketCap)) stages).remainingAmount >
                1/100000 then
              (stageLoop t.amount t.entryPrice
                  (t.price * (t.targetMarketCap / t.marketCap)) stages).remainingAmount *
                (t.price * (t.targetMarketCap / t.marketCap))
            else 0)
        profit :=
          (stageLoop t.amount t.entryPrice
              (t.price * (t.targetMarketCap / t.marketCap)) stages).totalExitValue +
            (if (stageLoop t.amount t.entryPrice
                  (t.price * (t.targetMarketCap / t.marketCap)) stages).remainingAmount >
                1/100000 then
              (stageLoop t.amount t.entryPrice
                  (t.price * (t.targetMarketCap / t.marketCap)) stages).remainingAmount *
                (t.price * (t.targetMarketCap / t.marketCap))
            else 0) - t.amount * t.entryPrice
        profitPercentage :=
          if t.amount * t.entryPrice > 0 then
            ((stageLoop t.amount t.entryPrice
                (t.price * (t.targetMarketCap / t.marketCap)) stages).totalExitValue +
              (if (stageLoop t.amount t.entryPrice
                    (t.price * (t.targetMarketCap / t.marketCap)) stages).remainingAmount >
                  1/100000 then
                (stageLoop t.amount t.entryPrice
                    (t.price * (t.targetMarketCap / t.marketCap)) stages).remainingAmount *
                  (t.price * (t.targetMarketCap / t.marketCap))
              else 0) - t.amount * t.entryPrice) / (t.amount * t.entryPrice) * 100
          else 0
        profitStages :=
          some (stageLoop t.amount t.entryPrice
            (t.price * (t.targetMarketCap / t.marketCap)) stages).profitStages } := by
  simp only [calculateTokenStrategy]
  rw [if_neg (calculateTokenStrategy_guard_false t hmc htmc hep), if_neg hne]

/-- With a nonnegative holding and percentages summing to at most 100, the
initial remaining amount covers the whole stage list. -/
lemma initial_remaining_covers (amount : ℚ) (stages : List ExitStage) (hA : 0 ≤ amount)
    (hsum : (stages.map ExitStage.percentage).sum ≤ 100) :
    amount * ((stages.map ExitStage.percentage).sum / 100) ≤ amount := by
  nlinarith [mul_le_mul_of_nonneg_left hsum hA]

/-- C1: for every token whose marketCap, targetMarketCap and entryPrice are all
positive, evaluating the strategy with no stages (an absent or empty stage
list) yields `totalExitValue = amount * targetPrice` with
`targetPrice = price * (targetMarketCap / marketCap)`, and the result carries
no `profitStages` entry. -/
theorem claim1_no_stage_exit (t : Token) (hmc : 0 < t.marketCap)
    (htmc : 0 < t.targetMarketCap) (hep : 0 < t.entryPrice) :
    (calculateTokenStrategy t none).totalExitValue =
        t.amount * (t.price * (t.targetMarketCap / t.marketCap)) ∧
    (calculateTokenStrategy t none).targetPrice =
        t.price * (t.targetMarketCap / t.marketCap) ∧
    (calculateTokenStrategy t none).profitStages = none ∧
    calculateTokenStrategy t (some []) = calculateTokenStrategy t none := by
  have h := calculateTokenStrategy_none_eq t hmc htmc hep
  rw [h]
  exact ⟨rfl, rfl, rfl, (calculateTokenStrategy_some_nil t).trans h⟩

/-- C1 witness: the hypotheses and conclusion of `claim1_no_stage_exit`
instantiated at the base example token ($2M market cap, $40M target). -/
theorem claim1_witness :
    ((0:ℚ) < baseToken.marketCap ∧ (0:ℚ) < baseToken.targetMarketCap ∧
      (0:ℚ) < baseToken.entryPrice) ∧
    ((calculateTokenStrategy baseToken none).totalExitValue =
        baseToken.amount * (baseToken.price * (baseToken.targetMarketCap / baseToken.marketCap)) ∧
      (calculateTokenStrategy baseToken none).targetPrice =
        baseToken.price * (baseToken.targetMarketCap / baseToken.marketCap) ∧
      (calculateTokenStrategy baseToken none).profitStages = none ∧
      calculateTokenStrategy baseToken (some []) = calculateTokenStrategy baseToken none) := by
  refine ⟨⟨?_, ?_, ?_⟩, claim1_no_stage_exit baseToken ?_ ?_ ?_⟩ <;> norm_num [baseToken]

/-- C2: for every token with positive marketCap, targetMarketCap and
entryPrice (nonnegative holding, data-model stage percentages), the evaluator
records each stage with its price capped at the target price — rewriting the
recorded multiplier to `targetPrice / entryPrice` exactly when the nominal
price `entryPrice * multiplier` exceeds the target — and leaves uncapped
stages' price and multiplier unchanged; the same rewrite is applied in place
to the caller-supplied stage list (`capStagesPost`). -/
theorem claim2_stage_price_capping (t : Token) (stages : List ExitStage)
    (hmc : 0 < t.marketCap) (htmc : 0 < t.targetMarketCap) (hep : 0 < t.entryPrice)
    (hA : 0 ≤ t.amount) (hne : stages ≠ [])
    (hpos : ∀ s ∈ stages, 0 ≤ s.percentage)
    (hsum : (stages.map ExitStage.percentage).sum ≤ 100) :
    (calculateTokenStrategy t (some stages)).profitStages =
      some (stages.map (stageEntry t.amount t.entryPrice
        (t.price * (t.targetMarketCap / t.marketCap)))) ∧
    (∀ s ∈ stages,
      (t.entryPrice * s.multiplier > t.price * (t.targetMarketCap / t.marketCap) →
        (stageEntry t.amount t.entryPrice
            (t.price * (t.targetMarketCap / t.marketCap)) s).price =
          t.price * (t.targetMarketCap / t.marketCap) ∧
        (stageEntry t.amount t.entryPrice
            (t.price * (t.targetMarketCap / t.marketCap)) s).multiplier =
          t.price * (t.targetMarketCap / t.marketCap) / t.entryPrice) ∧
      (¬ t.entryPrice * s.multiplier > t.price * (t.targetMarketCap / t.marketCap) →
        (stageEntry t.amount t.entryPrice
            (t.price * (t.targetMarketCap / t.marketCap)) s).price =
          t.entryPrice * s.multiplier ∧
        (stageEntry t.amount t.entryPrice
            (t.price * (t.targetMarketCap / t.marketCap)) s).multiplier = s.multiplier)) ∧
    capStagesPost t stages = stages.map (fun s =>
      if t.entryPrice * s.multiplier > t.price * (t.targetMarketCap / t.marketCap) then
        { percentage := s.percentage
          multiplier := t.price * (t.targetMarketCap / t.marketCap) / t.entryPrice }
      else s) := by
  refine ⟨?_, ?_, ?_⟩
  · rw [calculateTokenStrategy_staged_eq t stages hmc htmc hep hne]
    show some (stageLoop t.amount t.entryPrice
        (t.price * (t.targetMarketCap / t.marketCap)) stages).profitStages = _
    unfold stageLoop
    rw [foldl_stageStep_noskip t.amount t.entryPrice
      (t.price * (t.targetMarketCap / t.marketCap)) hA stages ⟨0, t.amount, []⟩ hpos
      (initial_remaining_covers t.amount stages hA hsum)]
    simp
  · intro s hs
    constructor
    · intro hcap
      constructor
      · simp [stageEntry, stagePriceOf, hcap]
      · simp [stageEntry, hcap]
    · intro hcap
      constructor
      · simp [stageEntry, stagePriceOf, hcap]
      · simp [stageEntry, hcap]
  · simp only [capStagesPost]
    rw [if_neg (calculateTokenStrategy_guard_false t hmc htmc hep)]

/-- C2 witness: `claim2_stage_price_capping` at the ladder table and the $6M
target token of the capping example; the recorded stages are exactly the
capped map. -/
theorem claim2_witness :
    ((∀ s ∈ initialStrategyConfig.ladder, 0 ≤ s.percentage) ∧
      (initialStrategyConfig.ladder.map ExitStage.percentage).sum ≤ 100) ∧
    (calculateTokenStrategy ladderTokenLow (some initialStrategyConfig.ladder)).profitStages =
      some (initialStrategyConfig.ladder.map (stageEntry ladderTokenLow.amount
        ladderTokenLow.entryPrice
        (ladderTokenLow.price * (ladderTokenLow.targetMarketCap / ladderTokenLow.marketCap)))) := by
  refine ⟨⟨?_, ?_⟩, (claim2_stage_price_capping ladderTokenLow initialStrategyConfig.ladder
    ?_ ?_ ?_ ?_ ?_ ?_ ?_).1⟩
  · intro s hs
    simp only [initialStrategyConfig, List.mem_cons, List.not_mem_nil, or_false] at hs
    rcases hs with rfl | rfl | rfl | rfl <;> norm_num
  · norm_num [initialStrategyConfig]
  · norm_num [ladderTokenLow, baseToken]
  · norm_num [ladderTokenLow, baseToken]
  · norm_num [ladderTokenLow, baseToken]
  · norm_num [ladderTokenLow, baseToken]
  · simp [initialStrategyConfig]
  · intro s hs
    simp only [initialStrategyConfig, List.mem_cons, List.not_mem_nil, or_false] at hs
    rcases hs with rfl | rfl | rfl | rfl <;> norm_num
  · norm_num [initialStrategyConfig]

/-- C3: with positive market data, a nonnegative holding, and stage
percentages summing to less than 100 with remainder above the 1e-5 epsilon,
the unsold remainder is valued at the target price inside `totalExitValue`
while `profitStages` keeps exactly one entry per supplied stage (no synthetic
remainder entry); in particular the moon-or-bust table on the base token
yields 2375 with exactly 2 recorded stages. -/
theorem claim3_unsold_remainder (t : Token) (stages : List ExitStage)
    (hmc : 0 < t.marketCap) (htmc : 0 < t.targetMarketCap) (hep : 0 < t.entryPrice)
    (hA : 0 ≤ t.amount) (hne : stages ≠ [])
    (hpos : ∀ s ∈ stages, 0 ≤ s.percentage)
    (hsum : (stages.map ExitStage.percentage).sum ≤ 100)
    (hrem : 1/100000 <
      t.amount - t.amount * ((stages.map ExitStage.percentage).sum / 100)) :
    (calculateTokenStrategy t (some stages)).totalExitValue =
      ((stages.map (fun s => (stageEntry t.amount t.entryPrice
          (t.price * (t.targetMarketCap / t.marketCap)) s).value)).sum) +
        (t.amount - t.amount * ((stages.map ExitStage.percentage).sum / 100)) *
          (t.price * (t.targetMarketCap / t.marketCap)) ∧
    ((calculateTokenStrategy t (some stages)).profitStages.map List.length) =
      some stages.length ∧
    (calculateTokenStrategy baseToken
        (some initialStrategyConfig.moonOrBust)).totalExitValue = 2375 ∧
    ((calculateTokenStrategy baseToken
        (some initialStrategyConfig.moonOrBust)).profitStages.map List.length) = some 2 := by
  have hloop := foldl_stageStep_noskip t.amount t.entryPrice
    (t.price * (t.targetMarketCap / t.marketCap)) hA stages ⟨0, t.amount, []⟩ hpos
    (initial_remaining_covers t.amount stages hA hsum)
  refine ⟨?_, ?_, ?_, ?_⟩
  · rw [calculateTokenStrategy_staged_eq t stages hmc htmc hep hne]
    show (stageLoop t.amount t.entryPrice
        (t.price * (t.targetMarketCap / t.marketCap)) stages).totalExitValue + _ = _
    unfold stageLoop
    rw [hloop]
    show 0 + _ + (if t.amount - t.amount *
        ((stages.map ExitStage.percentage).sum / 100) > 1/100000 then _ else 0) = _
    rw [if_pos hrem]
    ring
  · rw [calculateTokenStrategy_staged_eq t stages hmc htmc hep hne]
    show ((some (stageLoop t.amount t.entryPrice
        (t.price * (t.targetMarketCap / t.marketCap)) stages).profitStages).map
          List.length) = _
    unfold stageLoop
    rw [hloop]
    simp
  · rw [calculateTokenStrategy_staged_eq baseToken initialStrategyConfig.moonOrBust
      (by norm_num [baseToken]) (by norm_num [baseToken]) (by norm_num [baseToken])
      (by simp [initialStrategyConfig])]
    norm_num [baseToken, initialStrategyConfig, stageLoop, stageStep, stageEntry,
      stagePriceOf, List.foldl_cons, List.foldl_nil]
  · rw [calculateTokenStrategy_staged_eq baseToken initialStrategyConfig.moonOrBust
      (by norm_num [baseToken]) (by norm_num [baseToken]) (by norm_num [baseToken])
      (by simp [initialStrategyConfig])]
    norm_num [baseToken, initialStrategyConfig, stageLoop, stageStep, stageEntry,
      stagePriceOf, List.foldl_cons, List.foldl_nil]

/-- C3 witness: `claim3_unsold_remainder` at the base token and the
moon-or-bust table (percentages sum to 50, remainder 50 above epsilon). -/
theorem claim3_witness :
    ((initialStrategyConfig.moonOrBust.map ExitStage.percentage).sum ≤ 100 ∧
      1/100000 < baseToken.amount - baseToken.amount *
        ((initialStrategyConfig.moonOrBust.map ExitStage.percentage).sum / 100)) ∧
    (calculateTokenStrategy baseToken
        (some initialStrategyConfig.moonOrBust)).totalExitValue = 2375 := by
  refine ⟨⟨?_, ?_⟩, (claim3_unsold_remainder baseToken initialStrategyConfig.moonOrBust
    ?_ ?_ ?_ ?_ ?_ ?_ ?_ ?_).2.2.1⟩
  · norm_num [initialStrategyConfig]
  · norm_num [initialStrategyConfig, baseToken]
  · norm_num [baseToken]
  · norm_num [baseToken]
  · norm_num [baseToken]
  · norm_num [baseToken]
  · simp [initialStrategyConfig]
  · intro s hs
    simp only [initialStrategyConfig, List.mem_cons, List.not_mem_nil, or_false] at hs
    rcases hs with rfl | rfl <;> norm_num
  · norm_num [initialStrategyConfig]
  · norm_num [initialStrategyConfig, baseToken]

/-- C4: for every token with positive market data and every stage list, the
amounts recorded in the emitted stages plus the final remaining amount equal
the token's amount exactly (hence within 1e-5), the evaluator's `profitStages`
are exactly the loop's records, and the total amount sold never exceeds the
holding by more than the 1e-5 epsilon. -/
theorem claim4_amount_conservation (t : Token) (stages : List ExitStage)
    (hmc : 0 < t.marketCap) (htmc : 0 < t.targetMarketCap) (hep : 0 < t.entryPrice) :
    sumStageAmounts
        (stageLoop t.amount t.entryPrice
          (t.price * (t.targetMarketCap / t.marketCap)) stages).profitStages +
      (stageLoop t.amount t.entryPrice
        (t.price * (t.targetMarketCap / t.marketCap)) stages).remainingAmount = t.amount ∧
    (stages ≠ [] → (calculateTokenStrategy t (some stages)).profitStages =
      some (stageLoop t.amount t.entryPrice
        (t.price * (t.targetMarketCap / t.marketCap)) stages).profitStages) ∧
    (0 ≤ t.amount →
      sumStageAmounts (stageLoop t.amount t.entryPrice
        (t.price * (t.targetMarketCap / t.marketCap)) stages).profitStages ≤
        t.amount + 1/100000) := by
  have hcons := foldl_stageStep_conservation t.amount t.entryPrice
    (t.price * (t.targetMarketCap / t.marketCap)) stages ⟨0, t.amount, []⟩
  have hcons' : sumStageAmounts
      (stageLoop t.amount t.entryPrice
        (t.price * (t.targetMarketCap / t.marketCap)) stages).profitStages +
      (stageLoop t.amount t.entryPrice
        (t.price * (t.targetMarketCap / t.marketCap)) stages).remainingAmount = t.amount := by
    unfold stageLoop
    simpa [sumStageAmounts] using hcons
  refine ⟨hcons', ?_, ?_⟩
  · intro hne
    rw [calculateTokenStrategy_staged_eq t stages hmc htmc hep hne]
  · intro hA
    have hge := foldl_stageStep_remaining_ge t.amount t.entryPrice
      (t.price * (t.targetMarketCap / t.marketCap)) stages ⟨0, t.amount, []⟩
      (by show -(1/100000) ≤ t.amount; linarith)
    have hge' : -(1/100000) ≤ (stageLoop t.amount t.entryPrice
        (t.price * (t.targetMarketCap / t.marketCap)) stages).remainingAmount := hge
    linarith

/-- C4 witness: `claim4_amount_conservation` at the base token and the ladder
table. -/
theorem claim4_witness :
    ((0:ℚ) < baseToken.marketCap ∧ (0:ℚ) ≤ baseToken.amount) ∧
    sumStageAmounts
        (stageLoop baseToken.amount baseToken.entryPrice
          (baseToken.price * (baseToken.targetMarketCap / baseToken.marketCap))
          initialStrategyConfig.ladder).profitStages +
      (stageLoop baseToken.amount baseToken.entryPrice
        (baseToken.price * (baseToken.targetMarketCap / baseToken.marketCap))
        initialStrategyConfig.ladder).remainingAmount = baseToken.amount := by
  refine ⟨⟨?_, ?_⟩, (claim4_amount_conservation baseToken initialStrategyConfig.ladder
    ?_ ?_ ?_).1⟩ <;> norm_num [baseToken]

/-- C5: for a null/undefined token, `compareStrategies` does not raise but
returns a comparison whose two results have every numeric field equal to 0
with no stages, winner `allAtOnce`, and zero difference figures. -/
theorem claim5_null_token_comparison :
    compareStrategies none =
      { selectedStrategy :=
          { currentValue := 0, targetPrice := 0, growthMultiplier := 0, totalExitValue := 0,
            profit := 0, profitPercentage := 0, profitStages := none }
        allAtOnce :=
          { currentValue := 0, targetPrice := 0, growthMultiplier := 0, totalExitValue := 0,
            profit := 0, profitPercentage := 0, profitStages := none }
        winner := .allAtOnce
        difference := 0
        differencePercentage := 0 } :=
  rfl

/-- C6: aggregating an empty token list succeeds and returns total 0, target 0,
growthMultiplier 0, highestPotentialToken none, and growthPercentage
`(0 - 1) * 100 = -100` (the code's choice among the spec's `-100 or 0`). -/
theorem claim6_empty_portfolio :
    calculatePortfolioValues [] =
      { total := 0, target := 0, growthMultiplier := 0, growthPercentage := -100,
        highestPotentialToken := none } := by
  norm_num [calculatePortfolioValues]

/-- C7 counterexample: on two tokens with the same potential multiplier
(both 2), `findTopOpportunities` returns both entries with equal multipliers,
so the output is not sorted *strictly* descending as the claim states. -/
theorem claim7_counterexample :
    ¬ List.Pairwise
      (fun a b : TopOpportunity => a.potentialMultiplier > b.potentialMultiplier)
      (findTopOpportunities [equalPotentialTokenOne, equalPotentialTokenTwo]) := by
  have heval : findTopOpportunities [equalPotentialTokenOne, equalPotentialTokenTwo] =
      [{ token := equalPotentialTokenOne, potentialMultiplier := 2 },
       { token := equalPotentialTokenTwo, potentialMultiplier := 2 }] := by
    norm_num [findTopOpportunities, equalPotentialTokenOne, equalPotentialTokenTwo,
      orDefaultOne, List.insertionSort, List.orderedInsert]
  rw [heval]
  intro h
  have h01 := (List.pairwise_cons.mp h).1 _ (List.mem_cons_self _ _)
  norm_num at h01

/-- C7 (amended): the opportunity ranking keeps only tokens with positive
marketCap and targetMarketCap, assigns `potentialMultiplier =
targetMarketCap / marketCap`, returns at most 5 entries sorted non-strictly
descending by multiplier (equal multipliers keep their input order, so the
order is not strict in general), and maps the empty input to the empty
output. -/
theorem claim7_top_five_sorted (tokens : List Token) :
    (findTopOpportunities tokens).length ≤ 5 ∧
    (∀ o ∈ findTopOpportunities tokens, ∃ t ∈ tokens,
      0 < t.marketCap ∧ 0 < t.targetMarketCap ∧
      o = { token := t, potentialMultiplier := t.targetMarketCap / t.marketCap }) ∧
    List.Pairwise
      (fun a b : TopOpportunity => b.potentialMultiplier ≤ a.potentialMultiplier)
      (findTopOpportunities tokens) ∧
    findTopOpportunities ([] : List Token) = [] := by
  refine ⟨?_, ?_, ?_, rfl⟩
  · simp only [findTopOpportunities]
    rw [List.length_take]
    exact min_le_left _ _
  · intro o ho
    simp only [findTopOpportunities] at ho
    have ho2 := List.take_subset _ _ ho
    have ho3 := (List.perm_insertionSort
      (fun a b : TopOpportunity => b.potentialMultiplier ≤ a.potentialMultiplier) _).subset ho2
    obtain ⟨t, htmem, rfl⟩ := List.mem_map.mp ho3
    obtain ⟨ht, hcond⟩ := List.mem_filter.mp htmem
    have hcond' : 0 < t.marketCap ∧ 0 < t.targetMarketCap := by simpa using hcond
    refine ⟨t, ht, hcond'.1, hcond'.2, ?_⟩
    simp [orDefaultOne, hcond'.1.ne', hcond'.2.ne']
  · haveI : IsTotal TopOpportunity
        (fun a b => b.potentialMultiplier ≤ a.potentialMultiplier) :=
      ⟨fun a b => le_total b.potentialMultiplier a.potentialMultiplier⟩
    haveI : IsTrans TopOpportunity
        (fun a b => b.potentialMultiplier ≤ a.potentialMultiplier) :=
      ⟨fun _ _ _ hab hbc => le_trans hbc hab⟩
    simp only [findTopOpportunities]
    exact List.Pairwise.sublist (List.take_sublist 5 _)
      (List.sorted_insertionSort _ _)

/-- C7 witness: `claim7_top_five_sorted` instantiated at a one-token list,
with the membership hypothesis discharged at the single ranked entry. -/
theorem claim7_witness :
    (findTopOpportunities [equalPotentialTokenOne]).length ≤ 5 ∧
    (∃ t ∈ [equalPotentialTokenOne], 0 < t.marketCap ∧ 0 < t.targetMarketCap ∧
      ({ token := equalPotentialTokenOne, potentialMultiplier := 2 } : TopOpportunity) =
        { token := t, potentialMultiplier := t.targetMarketCap / t.marketCap }) := by
  refine ⟨(claim7_top_five_sorted [equalPotentialTokenOne]).1,
    (claim7_top_five_sorted [equalPotentialTokenOne]).2.1 _ ?_⟩
  norm_num [findTopOpportunities, equalPotentialTokenOne, orDefaultOne,
    List.insertionSort, List.orderedInsert]

/-- Mapping over a stable sort followed by a take preserves distinctness of
the mapped keys. -/
lemma take_sort_map_nodup {α β : Type} (f : α → β) (r : α → α → Prop) [DecidableRel r]
    (l : List α) (h : (l.map f).Nodup) (n : ℕ) :
    (((List.insertionSort r l).take n).map f).Nodup := by
  have h1 : ((List.insertionSort r l).map f).Nodup :=
    (((List.perm_insertionSort r l).map f).symm).nodup h
  exact List.Nodup.sublist ((List.take_sublist n _).map f) h1

/-- A sell bucket (filter, sort, take 3) of an analyzed list with distinct
token ids has distinct token ids. -/
lemma bucket_nodup (al : List AnalyzedToken) (p : AnalyzedToken → Bool)
    (r : AnalyzedToken → AnalyzedToken → Prop) [DecidableRel r]
    (h : (al.map (fun t => t.token.id)).Nodup) :
    (((List.insertionSort r (al.filter p)).take 3).map (fun t => t.token.id)).Nodup :=
  take_sort_map_nodup _ r _
    (List.Nodup.sublist ((List.filter_sublist al).map _) h) 3

/-- The scored (accelerate) bucket of an analyzed list with distinct token ids
has distinct token ids. -/
lemma bucket_nodup_scored (al : List AnalyzedToken) (p : AnalyzedToken → Bool)
    (g : AnalyzedToken → ScoredToken) (hg : ∀ t, (g t).base = t)
    (r : ScoredToken → ScoredToken → Prop) [DecidableRel r]
    (h : (al.map (fun t => t.token.id)).Nodup) :
    (((List.insertionSort r ((al.filter p).map g)).take 3).map
      (fun s => s.base.token.id)).Nodup := by
  apply take_sort_map_nodup
  rw [List.map_map]
  have hfun : ((fun s : ScoredToken => s.base.token.id) ∘ g) =
      (fun t : AnalyzedToken => t.token.id) := by
    funext t
    simp [hg]
  rw [hfun]
  exact List.Nodup.sublist ((List.filter_sublist al).map _) h

/-- The analysis map keeps the underlying token ids, so distinct input ids give
distinct analyzed ids after the noise filter. -/
lemma analyzed_ids_nodup (tokens : List Token) (tv : ℚ) (p : AnalyzedToken → Bool)
    (h : (tokens.map Token.id).Nodup) :
    (((tokens.map (analyzeToken tv)).filter p).map (fun t => t.token.id)).Nodup := by
  apply List.Nodup.sublist ((List.filter_sublist _).map _)
  rw [List.map_map]
  have hfun : ((fun t : AnalyzedToken => t.token.id) ∘ analyzeToken tv) = Token.id := by
    funext t
    rfl
  rw [hfun]
  exact h

/-- C8 counterexample: token A (60% weight, 95% progress at medium conviction)
appears in BOTH the profit-taking and the concentration-risk buckets of one
`getRebalanceCandidates` call, so the three sell buckets are not pairwise
disjoint as the claim states. -/
theorem claim8_counterexample :
    ¬ List.Disjoint
      ((getRebalanceCandidates [rebalanceTokenA, rebalanceTokenB]).profit.map
        (fun t => t.token.id))
      ((getRebalanceCandidates [rebalanceTokenA, rebalanceTokenB]).risk.map
        (fun t => t.token.id)) := by
  have hp : (getRebalanceCandidates [rebalanceTokenA, rebalanceTokenB]).profit.map
      (fun t => t.token.id) = ["a"] := by
    norm_num [getRebalanceCandidates, rebalanceTokenA, rebalanceTokenB, analyzeToken,
      profitThreshold, progressExcess, buyScore, buyConvictionWeight, sellConvictionWeight,
      List.insertionSort, List.orderedInsert, List.foldl_cons, List.foldl_nil]
  have hr : (getRebalanceCandidates [rebalanceTokenA, rebalanceTokenB]).risk.map
      (fun t => t.token.id) = ["a"] := by
    norm_num [getRebalanceCandidates, rebalanceTokenA, rebalanceTokenB, analyzeToken,
      profitThreshold, progressExcess, buyScore, buyConvictionWeight, sellConvictionWeight,
      List.insertionSort, List.orderedInsert, List.foldl_cons, List.foldl_nil]
  intro hd
  have h1 : "a" ∈ (getRebalanceCandidates [rebalanceTokenA, rebalanceTokenB]).profit.map
      (fun t => t.token.id) := by
    rw [hp]
    exact List.mem_singleton_self "a"
  have h2 : "a" ∈ (getRebalanceCandidates [rebalanceTokenA, rebalanceTokenB]).risk.map
      (fun t => t.token.id) := by
    rw [hr]
    exact List.mem_singleton_self "a"
  exact hd h1 h2

/-- C8 (amended): the three sell buckets of one `getRebalanceCandidates` call
may overlap (a token can satisfy several bucket criteria at once); what does
hold is that, for input lists with distinct token ids, no token appears twice
within any single bucket, and each bucket carries at most 3 entries. -/
theorem claim8_bucket_nodup (tokens : List Token)
    (hids : (tokens.map Token.id).Nodup) :
    ((getRebalanceCandidates tokens).profit.map (fun t => t.token.id)).Nodup ∧
    ((getRebalanceCandidates tokens).risk.map (fun t => t.token.id)).Nodup ∧
    ((getRebalanceCandidates tokens).accelerate.map (fun s => s.base.token.id)).Nodup ∧
    (getRebalanceCandidates tokens).profit.length ≤ 3 ∧
    (getRebalanceCandidates tokens).risk.length ≤ 3 ∧
    (getRebalanceCandidates tokens).accelerate.length ≤ 3 := by
  simp only [getRebalanceCandidates]
  split_ifs with h1 h2
  · simp
  · simp
  · refine ⟨?_, ?_, ?_, ?_, ?_, ?_⟩
    · exact bucket_nodup _ _ _ (analyzed_ids_nodup tokens _ _ hids)
    · exact bucket_nodup _ _ _ (analyzed_ids_nodup tokens _ _ hids)
    · exact bucket_nodup_scored _ _ _ (fun t => rfl) _
        (analyzed_ids_nodup tokens _ _ hids)
    · rw [List.length_take]
      exact min_le_left _ _
    · rw [List.length_take]
      exact min_le_left _ _
    · rw [List.length_take]
      exact min_le_left _ _

/-- C8 witness: `claim8_bucket_nodup` at the two-token demo portfolio with
distinct ids. -/
theorem claim8_witness :
    (([rebalanceTokenA, rebalanceTokenB].map Token.id).Nodup) ∧
    (((getRebalanceCandidates [rebalanceTokenA, rebalanceTokenB]).profit.map
        (fun t => t.token.id)).Nodup ∧
      ((getRebalanceCandidates [rebalanceTokenA, rebalanceTokenB]).risk.map
        (fun t => t.token.id)).Nodup ∧
      ((getRebalanceCandidates [rebalanceTokenA, rebalanceTokenB]).accelerate.map
        (fun s => s.base.token.id)).Nodup ∧
      (getRebalanceCandidates [rebalanceTokenA, rebalanceTokenB]).profit.length ≤ 3 ∧
      (getRebalanceCandidates [rebalanceTokenA, rebalanceTokenB]).risk.length ≤ 3 ∧
      (getRebalanceCandidates [rebalanceTokenA, rebalanceTokenB]).accelerate.length ≤ 3) := by
  have hids : (([rebalanceTokenA, rebalanceTokenB].map Token.id)).Nodup := by
    simp [rebalanceTokenA, rebalanceTokenB]
  exact ⟨hids, claim8_bucket_nodup [rebalanceTokenA, rebalanceTokenB] hids⟩

/-- Replacing key `k` in an object that contains it makes `k` map to the new
value (auxiliary `find?` computation). -/
lemma find_map_replace {α : Type} (k : String) (v : α) :
    ∀ m : List (String × α), m.any (fun p => decide (p.1 = k)) = true →
      ((m.map (fun p => if p.1 = k then (k, v) else p)).find?
        (fun p => decide (p.1 = k))) = some (k, v) := by
  intro m
  induction m with
  | nil =>
    intro h
    simp at h
  | cons q rest ih =>
    intro h
    by_cases hq : q.1 = k
    · simp [hq, List.find?]
    · have h' : rest.any (fun p => decide (p.1 = k)) = true := by
        simp only [List.any_cons, Bool.or_eq_true, decide_eq_true_eq] at h
        rcases h with h | h
        · exact absurd h hq
        · exact h
      simp [hq, List.find?, ih h']

/-- Replacing key `k` leaves lookups of a different key `k'` unchanged
(auxiliary `find?` computation). -/
lemma find_map_other {α : Type} (k k' : String) (v : α) (hne : k' ≠ k) :
    ∀ m : List (String × α),
      ((m.map (fun p => if p.1 = k then (k, v) else p)).find?
        (fun p => decide (p.1 = k'))) = m.find? (fun p => decide (p.1 = k')) := by
  intro m
  induction m with
  | nil => rfl
  | cons q rest ih =>
    by_cases hq : q.1 = k
    · have hkk' : ¬ k = k' := fun hh => hne hh.symm
      have hqk' : ¬ q.1 = k' := by
        rw [hq]
        exact hkk'
      simp [hq, hkk', hqk', List.find?, ih]
    · simp only [List.map_cons, if_neg hq]
      by_cases hq' : q.1 = k'
      · simp [List.find?, hq']
      · simp [List.find?, hq', ih]

/-- Writing `m[k] = v` makes `m[k]` read back `v`. -/
lemma objGet_objSet_self {α : Type} (m : List (String × α)) (k : String) (v dflt : α) :
    objGet (objSet m k v) k dflt = v := by
  by_cases h : (m.any fun p => decide (p.1 = k)) = true
  · unfold objSet objGet
    rw [if_pos h, find_map_replace k v m h]
  · unfold objSet objGet
    rw [if_neg h]
    have hnone : m.find? (fun p => decide (p.1 = k)) = none := by
      rw [List.find?_eq_none]
      intro p hp
      simp only [decide_eq_true_eq]
      intro hpk
      exact h (List.any_eq_true.mpr ⟨p, hp, by simp [hpk]⟩)
    rw [List.find?_append, hnone]
    simp [List.find?]

/-- Writing `m[k] = v` does not change reads of another key. -/
lemma objGet_objSet_other {α : Type} (m : List (String × α)) (k k' : String) (v dflt : α)
    (hne : k' ≠ k) :
    objGet (objSet m k v) k' dflt = objGet m k' dflt := by
  by_cases h : (m.any fun p => decide (p.1 = k)) = true
  · unfold objSet objGet
    rw [if_pos h, find_map_other k k' v hne m]
  · unfold objSet objGet
    rw [if_neg h]
    have hkk' : ¬ k = k' := fun hh => hne hh.symm
    have h2 : ([(k, v)] : List (String × α)).find? (fun p => decide (p.1 = k')) = none := by
      simp [List.find?, hkk']
    rw [List.find?_append, h2]
    cases hm : m.find? (fun p => decide (p.1 = k')) <;> simp [hm, Option.orElse]

/-- Once a row maps `s1` to 1, the rest of the inner loop keeps it at 1 (later
iterations either rewrite `s1` back to 1 or touch other keys). -/
lemma corrRowStep_preserve (rng : ℕ → ℚ) (s1 : String) :
    ∀ (l2 : List String) (acc : List (String × ℚ) × ℕ),
      objGet acc.1 s1 0 = 1 →
      objGet ((l2.foldl (corrRowStep rng s1) acc).1) s1 0 = 1 := by
  intro l2
  induction l2 with
  | nil => intro acc h; exact h
  | cons s2 rest ih =>
    intro acc h
    rw [List.foldl_cons]
    apply ih
    unfold corrRowStep
    by_cases hs : s1 = s2
    · rw [if_pos hs]
      subst hs
      exact objGet_objSet_self _ _ _ _
    · rw [if_neg hs]
      show objGet (objSet acc.1 s2 _) s1 0 = 1
      rw [objGet_objSet_other _ _ _ _ _ hs]
      exact h

/-- The row built for symbol `s1` carries 1 at key `s1` whenever `s1` occurs
among the iterated symbols. -/
lemma buildCorrRow_diag (rng : ℕ → ℚ) (syms : List String) (s1 : String) (start : ℕ)
    (h : s1 ∈ syms) :
    objGet (buildCorrRow rng syms s1 start).1 s1 0 = 1 := by
  obtain ⟨l1, l2, rfl⟩ := List.append_of_mem h
  unfold buildCorrRow
  rw [List.foldl_append, List.foldl_cons]
  apply corrRowStep_preserve
  unfold corrRowStep
  rw [if_pos rfl]
  exact objGet_objSet_self _ _ _ _

/-- Once the matrix maps `s` to a row with 1 at `s`, the rest of the outer loop
keeps that diagonal entry (rows for `s` are rebuilt with the diagonal 1, other
rows do not touch key `s`). -/
lemma corrOuterStep_preserve (rng : ℕ → ℚ) (syms : List String) (s : String)
    (hs : s ∈ syms) :
    ∀ (l2 : List Token) (acc : List (String × List (String × ℚ)) × ℕ),
      objGet (objGet acc.1 s []) s 0 = 1 →
      objGet (objGet ((l2.foldl (corrOuterStep rng syms) acc).1) s []) s 0 = 1 := by
  intro l2
  induction l2 with
  | nil => intro acc h; exact h
  | cons t1 rest ih =>
    intro acc h
    rw [List.foldl_cons]
    apply ih
    simp only [corrOuterStep]
    by_cases ht : t1.symbol = s
    · rw [ht, objGet_objSet_self]
      exact buildCorrRow_diag rng syms s _ hs
    · rw [objGet_objSet_other _ _ _ _ _ (fun hh => ht hh.symm)]
      exact h

/-- C9 counterexample: on two tokens, with a random stream whose first two
draws differ, `matrix[A][B] ≠ matrix[B][A]` (the two off-diagonal entries come
from independent draws), and two different streams give different matrices for
the same token list — the matrix is neither symmetric nor a function of the
token list alone. -/
theorem claim9_counterexample :
    matrixAt (calculateCorrelationMatrix rngAsym [rebalanceTokenA, rebalanceTokenB])
        "A" "B" ≠
      matrixAt (calculateCorrelationMatrix rngAsym [rebalanceTokenA, rebalanceTokenB])
        "B" "A" ∧
    calculateCorrelationMatrix rngAsym [rebalanceTokenA, rebalanceTokenB] ≠
      calculateCorrelationMatrix rngHalf [rebalanceTokenA, rebalanceTokenB] := by
  have hAB : ("A" : String) ≠ "B" := by decide
  have hBA : ("B" : String) ≠ "A" := by decide
  constructor
  · norm_num [matrixAt, calculateCorrelationMatrix, corrOuterStep, buildCorrRow,
      corrRowStep, objSet, objGet, rngAsym, rebalanceTokenA, rebalanceTokenB,
      List.foldl_cons, List.foldl_nil, List.find?, hAB, hBA]
  · norm_num [calculateCorrelationMatrix, corrOuterStep, buildCorrRow, corrRowStep,
      objSet, objGet, rngAsym, rngHalf, rebalanceTokenA, rebalanceTokenB,
      List.foldl_cons, List.foldl_nil, hAB, hBA]

/-- C9 (amended): the correlation matrix always carries 1 on the diagonal for
every token of the input; the off-diagonal entries are fresh `Math.random()`
draws, so symmetry and cross-call reproducibility are not guaranteed (see the
counterexample). -/
theorem claim9_diagonal_one (rng : ℕ → ℚ) (tokens : List Token) (t : Token)
    (ht : t ∈ tokens) :
    matrixAt (calculateCorrelationMatrix rng tokens) t.symbol t.symbol = 1 := by
  have hsym : t.symbol ∈ tokens.map (fun t => t.symbol) :=
    List.mem_map_of_mem _ ht
  obtain ⟨l1, l2, rfl⟩ := List.append_of_mem ht
  unfold calculateCorrelationMatrix matrixAt
  rw [List.foldl_append, List.foldl_cons]
  apply corrOuterStep_preserve _ _ _ hsym
  simp only [corrOuterStep]
  rw [objGet_objSet_self]
  exact buildCorrRow_diag _ _ _ _ hsym

/-- C9 witness: the diagonal entry of the one-token matrix under the constant
stream is 1, via `claim9_diagonal_one`. -/
theorem claim9_witness :
    rebalanceTokenA ∈ [rebalanceTokenA] ∧
    matrixAt (calculateCorrelationMatrix rngHalf [rebalanceTokenA])
      rebalanceTokenA.symbol rebalanceTokenA.symbol = 1 :=
  ⟨List.mem_singleton_self _,
    claim9_diagonal_one rngHalf [rebalanceTokenA] rebalanceTokenA
      (List.mem_singleton_self _)⟩

/-- C10: evaluating a ladder-strategy token whose target price is $6 rewrites
the shared `STRATEGY_CONFIG.ladder` table in place (8x and 16x become 6x), and
a later evaluation of a *different* token (target price $40) through the same
module state then uses the lowered table — totalExitValue 450 instead of the
750 it yields against a fresh table.  The evaluator is therefore not free of
side effects on its stage argument. -/
theorem claim10_shared_config_mutation :
    (compareStrategiesShared initialStrategyConfig (some ladderTokenLow)).2.ladder =
      [⟨25, 2⟩, ⟨25, 4⟩, ⟨25, 6⟩, ⟨25, 6⟩] ∧
    (compareStrategiesShared
        ((compareStrategiesShared initialStrategyConfig (some ladderTokenLow)).2)
        (some ladderTokenHigh)).1.selectedStrategy.totalExitValue = 450 ∧
    (compareStrategiesShared initialStrategyConfig
        (some ladderTokenHigh)).1.selectedStrategy.totalExitValue = 750 := by
  refine ⟨?_, ?_, ?_⟩
  · norm_num [compareStrategiesShared, initialStrategyConfig, ladderTokenLow, baseToken,
      capStagesPost]
  · norm_num [compareStrategiesShared, initialStrategyConfig, ladderTokenLow,
      ladderTokenHigh, baseToken, capStagesPost, calculateTokenStrategy, stageLoop,
      stageStep, stageEntry, stagePriceOf, List.foldl_cons, List.foldl_nil]
    simp
  · norm_num [compareStrategiesShared, initialStrategyConfig, ladderTokenHigh, baseToken,
      capStagesPost, calculateTokenStrategy, stageLoop, stageStep, stageEntry,
      stagePriceOf, List.foldl_cons, List.foldl_nil]
    simp

end CryptoVault
